import Mathlib

/-!
Shallow embedding of the salary tax calculator
(src/salary_tax_calculator_india_us_uk_react_component.jsx).

Monetary amounts and rates are modelled as exact rationals (ℚ): the source
performs plain JavaScript arithmetic with no rounding, and the spec treats
all arithmetic as total over the reals with explicit clamping.

A band's missing upper bound (`upto: null`, read as `Infinity` inside
`calcProgressiveTax`) is modelled as `Option ℚ` with `none` for the
unbounded case.
-/

namespace SalaryTax

/-- Source: `type Band = { upto: number | null; rate: number }` (line 31). -/
structure Band where
  upto : Option ℚ
  rate : ℚ
deriving DecidableEq, Repr

/-- One entry of the slice breakdown `{ amount, rate, tax }` built by
`calcProgressiveTax` (source line 198). -/
structure Slice where
  amount : ℚ
  rate : ℚ
  tax : ℚ
deriving DecidableEq, Repr

/-- One surcharge line `{ label: string, amount: number }` produced by a
regime's `extras` function (source line 47). -/
structure ExtraItem where
  label : String
  amount : ℚ
deriving DecidableEq, Repr

/-- The loop of `calcProgressiveTax` (source lines 200–211), written as a
recursion over the band list.  State: `remaining` (income not yet sliced)
and `lastCap` (upper bound of the last band that produced a slice, starting
at 0; the source only advances `lastCap` inside the `sliceAmount > 0`
branch).  The `if remaining <= 0 then break` at the end of the loop body
becomes the early returns.  After a band with `upto = null` the loop always
breaks: either its slice consumed all of `remaining`, or `remaining ≤ 0`
already held — so the `lastCap = Infinity` state is never consulted and
needs no representation. -/
def calcGo : ℚ → ℚ → List Band → ℚ × List Slice
  | _, _, [] => (0, [])
  | remaining, lastCap, band :: rest =>
    match band.upto with
    | some cap =>
      let sliceAmount := max 0 (min remaining (cap - lastCap))
      let sliceTax := sliceAmount * band.rate
      if 0 < sliceAmount then
        if remaining - sliceAmount ≤ 0 then
          (sliceTax, [⟨sliceAmount, band.rate, sliceTax⟩])
        else
          let r := calcGo (remaining - sliceAmount) cap rest
          (sliceTax + r.1, ⟨sliceAmount, band.rate, sliceTax⟩ :: r.2)
      else
        if remaining ≤ 0 then (0, [])
        else calcGo remaining lastCap rest
    | none =>
      let sliceAmount := max 0 remaining
      let sliceTax := sliceAmount * band.rate
      if 0 < sliceAmount then
        (sliceTax, [⟨sliceAmount, band.rate, sliceTax⟩])
      else
        (0, [])

/-- Source function `calcProgressiveTax(income, bands)` (lines 194–213).
Entry clamps the income: `let remaining = Math.max(0, income)`; `lastCap`
starts at 0.  Returns `(tax, slices)`.  The slice amount of one loop
iteration (line 202) is `Math.max(0, Math.min(remaining, cap - lastCap))`
with `cap = band.upto ?? Infinity`; with `cap = Infinity` (and `lastCap`
finite, which always holds when evaluated) the inner `min` is `remaining`
itself. -/
def calcProgressiveTax (income : ℚ) (bands : List Band) : ℚ × List Slice :=
  calcGo (max 0 income) 0 bands

/-- Source: `type FilingStatusUS = "single" | "married"` (line 29). -/
inductive FilingStatusUS where
  | single
  | married
deriving DecidableEq, Repr

/-- The US regime's `defaultParams` shape `{ filing, includeFICA }`
(source line 90). -/
structure USParams where
  filing : FilingStatusUS
  includeFICA : Bool
deriving DecidableEq, Repr

/-- The UK regime's `defaultParams` shape `{ includeNI, personalAllowance }`
(source line 152). -/
structure UKParams where
  includeNI : Bool
  personalAllowance : ℚ
deriving DecidableEq, Repr

/-- JavaScript truthiness of `p?.includeFICA` for an optional US params
object (source line 116): `false` when `p` is absent. -/
def ficaOn : Option USParams → Bool
  | some p => p.includeFICA
  | none => false

/-- JavaScript truthiness of `p?.includeNI` for an optional UK params
object (source line 161): `false` when `p` is absent. -/
def niOn : Option UKParams → Bool
  | some p => p.includeNI
  | none => false

/-- Band set `taxConfigs["india-new"].bands()` (source lines 64–71). -/
def indiaNewBands : List Band :=
  [⟨some 300000, 0⟩, ⟨some 700000, 5/100⟩, ⟨some 1000000, 10/100⟩,
   ⟨some 1200000, 15/100⟩, ⟨some 1500000, 20/100⟩, ⟨none, 30/100⟩]

/-- Band set `taxConfigs["india-old"].bands()` (source lines 78–83). -/
def indiaOldBands : List Band :=
  [⟨some 250000, 0⟩, ⟨some 500000, 5/100⟩, ⟨some 1000000, 20/100⟩,
   ⟨none, 30/100⟩]

/-- Band function `taxConfigs.us.bands(p)` (source lines 91–113):
`p?.filing ?? "single"` selects one of two fixed band sets. -/
def usBands (p : Option USParams) : List Band :=
  match (match p with | some q => q.filing | none => FilingStatusUS.single) with
  | FilingStatusUS.married =>
      [⟨some 22000, 10/100⟩, ⟨some 94000, 12/100⟩, ⟨some 201000, 22/100⟩,
       ⟨some 383000, 24/100⟩, ⟨some 487000, 32/100⟩, ⟨some 732000, 35/100⟩,
       ⟨none, 37/100⟩]
  | FilingStatusUS.single =>
      [⟨some 11000, 10/100⟩, ⟨some 47000, 12/100⟩, ⟨some 100000, 22/100⟩,
       ⟨some 191000, 24/100⟩, ⟨some 243000, 32/100⟩, ⟨some 366000, 35/100⟩,
       ⟨none, 37/100⟩]

/-- Extras function `taxConfigs.us.extras(taxable, gross, p)` (source
lines 114–124).  When FICA is on: Social Security
`Math.min(gross, 168600) * 0.062` and Medicare `gross * 0.0145`, both
from gross income; otherwise no items. -/
def usExtras (taxable gross : ℚ) (p : Option USParams) : List ExtraItem :=
  if ficaOn p then
    [⟨"Social Security (6.2%)", min gross 168600 * (62/1000)⟩,
     ⟨"Medicare (1.45%)", gross * (145/10000)⟩]
  else
    []

/-- Band function `taxConfigs.uk.bands(p)` (source lines 153–158): the
first 0%-band's upper bound is `p?.personalAllowance ?? 12570`; the
remaining bands are fixed. -/
def ukBands (p : Option UKParams) : List Band :=
  [⟨some (match p with | some q => q.personalAllowance | none => 12570), 0⟩,
   ⟨some 50270, 20/100⟩, ⟨some 125140, 40/100⟩, ⟨none, 45/100⟩]

/-- Extras function `taxConfigs.uk.extras(_taxable, gross, p)` (source
lines 159–169).  When NI is on: one item summing the two NI tiers,
computed from gross income (the taxable argument is ignored by the
source); otherwise no items. -/
def ukExtras (taxable gross : ℚ) (p : Option UKParams) : List ExtraItem :=
  if niOn p then
    [⟨"National Insurance (employee)",
      max 0 (min gross 50270 - 12570) * (8/100) +
        max 0 (gross - 50270) * (2/100)⟩]
  else
    []

/-- The computational content of a `TaxConfig` entry (source lines 35–52):
the band-generating function and the optional extras function, over that
regime's params type `α`.  Display metadata and UI renderers are omitted. -/
structure TaxConfigM (α : Type) where
  bands : α → List Band
  extras : Option (ℚ → ℚ → α → List ExtraItem)

/-- Registry entry `taxConfigs["india-new"]` (no extras function). -/
def indiaNewConfig : TaxConfigM Unit :=
  ⟨fun _ => indiaNewBands, none⟩

/-- Registry entry `taxConfigs["india-old"]` (no extras function). -/
def indiaOldConfig : TaxConfigM Unit :=
  ⟨fun _ => indiaOldBands, none⟩

/-- Registry entry `taxConfigs.us`, computational content. -/
def usConfig : TaxConfigM (Option USParams) :=
  ⟨usBands, some usExtras⟩

/-- Registry entry `taxConfigs.uk`, computational content. -/
def ukConfig : TaxConfigM (Option UKParams) :=
  ⟨ukBands, some ukExtras⟩

/-- The input period toggle (source line 260). -/
inductive Period where
  | annual
  | monthly
deriving DecidableEq, Repr

/-- The derived values the `SalaryTaxCalculator` component computes from
its inputs (source lines 272–292). -/
structure Result where
  grossAnnual : ℚ
  deductions : ℚ
  taxableBase : ℚ
  incomeTax : ℚ
  slices : List Slice
  extras : List ExtraItem
  totalTax : ℚ
  netAnnual : ℚ
  marginalRate : ℚ
  effRate : ℚ

/-- The computation pipeline of the `SalaryTaxCalculator` component
(source lines 272–292), for a regime `cfg` with params type `α`:
`grossAnnual` from the period toggle, deductions and taxable base clamped
at 0, band tax via `calcProgressiveTax` on the taxable base, extras (if
the regime has them) on `(taxableBase, grossAnnual, params)` — the gross
amount is passed through unclamped — then totals, marginal rate from the
last slice, and the effective rate guarded by `grossAnnual > 0`. -/
def computeResult {α : Type} (cfg : TaxConfigM α) (amount : ℚ)
    (period : Period) (standardDeduction otherDeductions : ℚ)
    (params : α) : Result :=
  let grossAnnual := match period with
    | Period.annual => amount
    | Period.monthly => amount * 12
  let deductions := max 0 (standardDeduction + otherDeductions)
  let taxableBase := max 0 (grossAnnual - deductions)
  let it := calcProgressiveTax taxableBase (cfg.bands params)
  let extras := match cfg.extras with
    | some f => f taxableBase grossAnnual params
    | none => []
  let extraTotal := (extras.map ExtraItem.amount).sum
  let totalTax := it.1 + extraTotal
  let netAnnual := max 0 (grossAnnual - totalTax)
  let marginalRate := match it.2.getLast? with
    | some s => s.rate
    | none => 0
  let effRate := if 0 < grossAnnual then totalTax / grossAnnual else 0
  ⟨grossAnnual, deductions, taxableBase, it.1, it.2, extras, totalTax,
   netAnnual, marginalRate, effRate⟩

/-- Total of the `amount` fields of a slice list. -/
def sliceSum (slices : List Slice) : ℚ :=
  (slices.map Slice.amount).sum

/-- The band list ends (at whatever depth) with an unbounded band: the
property of the source's band walk that guarantees all income is
eventually sliced. -/
def EndsUnbounded : List Band → Prop
  | [] => False
  | [b] => b.upto = none
  | _ :: b :: rest => EndsUnbounded (b :: rest)

/-- A valid band partition in the sense of the spec's Band model: present
upper bounds are strictly increasing, and exactly the last band is
unbounded. -/
def ValidBands (bands : List Band) : Prop :=
  List.Chain' (fun a b => a < b) (bands.filterMap Band.upto) ∧
  ∃ front lastBand, bands = front ++ [lastBand] ∧ lastBand.upto = none ∧
    ∀ b ∈ front, b.upto ≠ none

theorem endsUnbounded_append (front : List Band) (b : Band)
    (h : b.upto = none) : EndsUnbounded (front ++ [b]) := by
  induction front with
  | nil => simpa [EndsUnbounded] using h
  | cons f fs ih =>
    cases fs with
    | nil => simpa [EndsUnbounded] using ih
    | cons g gs => simpa [EndsUnbounded] using ih

theorem ValidBands.endsUnbounded {bands : List Band} (h : ValidBands bands) :
    EndsUnbounded bands := by
  obtain ⟨-, front, lastBand, rfl, hnone, -⟩ := h
  exact endsUnbounded_append front lastBand hnone

theorem EndsUnbounded.tail_of_some {band : Band} {rest : List Band}
    {cap : ℚ} (h : EndsUnbounded (band :: rest))
    (hu : band.upto = some cap) : EndsUnbounded rest := by
  cases rest with
  | nil => simp [EndsUnbounded, hu] at h
  | cons g gs => simpa [EndsUnbounded] using h

/-- The loop invariant behind completeness: when the band list ends with
an unbounded band, the slice amounts produced from a non-negative
`remaining` add up to exactly `remaining`, whatever `lastCap` is. -/
theorem calcGo_sliceSum :
    ∀ (bands : List Band) (remaining lastCap : ℚ), EndsUnbounded bands →
      0 ≤ remaining → sliceSum (calcGo remaining lastCap bands).2 = remaining := by
  intro bands
  induction bands with
  | nil => intro r lc hend _; simp [EndsUnbounded] at hend
  | cons band rest ih =>
    intro r lc hend hr
    rcases hu : band.upto with _ | cap
    · simp only [calcGo, hu]
      split_ifs with h1
      · simp [sliceSum, max_eq_right hr]
      · have : r ≤ 0 := by
          by_contra hpos
          exact h1 (lt_max_of_lt_right (lt_of_not_le hpos))
        simp [sliceSum]
        linarith
    · have hrest : EndsUnbounded rest := hend.tail_of_some hu
      simp only [calcGo, hu]
      split_ifs with h1 h2 h3
      · -- positive slice consuming everything: the slice equals remaining
        have hle : max 0 (min r (cap - lc)) ≤ r :=
          max_le hr (min_le_left _ _)
        simp [sliceSum]
        linarith
      · -- positive slice, loop continues on the rest
        have hle : max 0 (min r (cap - lc)) ≤ r :=
          max_le hr (min_le_left _ _)
        simp only [sliceSum, List.map_cons, List.sum_cons]
        have := ih (r - max 0 (min r (cap - lc))) cap hrest (by linarith)
        rw [sliceSum] at this
        rw [this]
        ring
      · -- zero slice and remaining ≤ 0: remaining is exactly 0
        simp [sliceSum]
        linarith
      · -- zero slice, loop continues with unchanged state
        exact ih r lc hrest hr

end SalaryTax

namespace SalaryTax

/-- Claim C1: for every non-negative income and valid band partition
(present upper bounds strictly increasing, exactly the last band
unbounded), the slices of `calcProgressiveTax` sum to the income. -/
theorem C1_slice_amounts_sum_to_income (income : ℚ) (bands : List Band)
    (hinc : 0 ≤ income) (hv : ValidBands bands) :
    sliceSum (calcProgressiveTax income bands).2 = income := by
  rw [calcProgressiveTax,
    calcGo_sliceSum bands _ 0 hv.endsUnbounded (le_max_left 0 income),
    max_eq_right hinc]

/-- Claim C1 witness: the completeness theorem applied to income 150 and
the concrete two-band partition. -/
theorem C1_slice_amounts_sum_to_income_witness :
    0 ≤ (150 : ℚ) ∧ ValidBands [⟨some 100, 0⟩, ⟨none, 1/10⟩] ∧
      sliceSum (calcProgressiveTax 150 [⟨some 100, 0⟩, ⟨none, 1/10⟩]).2 = 150 := by
  have hv : ValidBands [⟨some 100, 0⟩, ⟨none, 1/10⟩] := by
    refine ⟨?_, [⟨some 100, 0⟩], ⟨none, 1/10⟩, rfl, rfl, ?_⟩ <;>
      simp [List.filterMap]
  exact ⟨by norm_num,
    hv, C1_slice_amounts_sum_to_income 150 _ (by norm_num) hv⟩

/-- Claim C2 counterexample: on the two-band partition
`[{upto: 100, rate: 0}, {upto: null, rate: 0.1}]`, income 150 produces TWO
slices, not exactly one — the zero-rate slice of amount 100 is also pushed
(the source pushes every slice with `sliceAmount > 0`, whatever its
rate). -/
theorem C2_one_slice_cex :
    (calcProgressiveTax 150 [⟨some 100, 0⟩, ⟨none, 1/10⟩]).2.length = 2 ∧
      (calcProgressiveTax 150 [⟨some 100, 0⟩, ⟨none, 1/10⟩]).2.length ≠ 1 := by
  norm_num [calcProgressiveTax, calcGo, max_def, min_def]

/-- Claim C2 (amended): on the two-band partition, income 100 yields tax 0
with a single slice of amount 100 (nothing reaches the second band), and
income 150 yields tax 5 with exactly two slices: amount 100 at rate 0 and
amount 50 at rate 0.1. -/
theorem C2_boundary_exactness :
    (calcProgressiveTax 100 [⟨some 100, 0⟩, ⟨none, 1/10⟩]).1 = 0 ∧
    (calcProgressiveTax 100 [⟨some 100, 0⟩, ⟨none, 1/10⟩]).2 = [⟨100, 0, 0⟩] ∧
    (calcProgressiveTax 150 [⟨some 100, 0⟩, ⟨none, 1/10⟩]).1 = 5 ∧
    (calcProgressiveTax 150 [⟨some 100, 0⟩, ⟨none, 1/10⟩]).2 =
      [⟨100, 0, 0⟩, ⟨50, 1/10, 5⟩] := by
  norm_num [calcProgressiveTax, calcGo, max_def, min_def]

/-- Every slice the loop pushes has a positive amount: the push is guarded
by `sliceAmount > 0`. -/
theorem calcGo_amount_pos :
    ∀ (bands : List Band) (remaining lastCap : ℚ),
      ∀ s ∈ (calcGo remaining lastCap bands).2, 0 < s.amount := by
  intro bands
  induction bands with
  | nil => intro r lc s hs; simp [calcGo] at hs
  | cons band rest ih =>
    intro r lc s hs
    rcases hu : band.upto with _ | cap
    · simp only [calcGo, hu] at hs
      split_ifs at hs with h1
      · simp only [List.mem_singleton] at hs
        subst hs
        exact h1
      · simp at hs
    · simp only [calcGo, hu] at hs
      split_ifs at hs with h1 h2
      · simp only [List.mem_singleton] at hs
        subst hs
        exact h1
      · rcases List.mem_cons.mp hs with rfl | hmem
        · exact h1
        · exact ih _ cap s hmem
      · simp at hs
      · exact ih r lc s hs

/-- The rates of the produced slices, in order, are a sublist of the
bands' rates in band order: each loop iteration pushes at most one slice,
carrying that band's rate. -/
theorem calcGo_rates_sublist :
    ∀ (bands : List Band) (remaining lastCap : ℚ),
      ((calcGo remaining lastCap bands).2.map Slice.rate).Sublist
        (bands.map Band.rate) := by
  intro bands
  induction bands with
  | nil => intro r lc; simp [calcGo]
  | cons band rest ih =>
    intro r lc
    rcases hu : band.upto with _ | cap
    · simp only [calcGo, hu]
      split_ifs with h1
      · simp
      · simp
    · simp only [calcGo, hu]
      split_ifs with h1 h2
      · simp
      · simpa only [List.map_cons] using (ih _ cap).cons₂ band.rate
      · simp
      · exact (ih r lc).cons band.rate

/-- Claim C4 counterexample: for a band partition whose rates decrease
(0.3 then 0.1), income 150 produces slices whose rates are `[0.3, 0.1]` —
not in strictly increasing order, refuting the claim's "any sequence of
bands" generality. -/
theorem C4_rate_order_cex :
    (calcProgressiveTax 150 [⟨some 100, 3/10⟩, ⟨none, 1/10⟩]).2.map Slice.rate =
        [3/10, 1/10] ∧
      ¬ List.Chain' (fun a b => a < b)
        ((calcProgressiveTax 150 [⟨some 100, 3/10⟩, ⟨none, 1/10⟩]).2.map
          Slice.rate) := by
  constructor
  · norm_num [calcProgressiveTax, calcGo, max_def, min_def]
  · intro h
    rw [show (calcProgressiveTax 150 [⟨some 100, 3/10⟩, ⟨none, 1/10⟩]).2.map
          Slice.rate = [3/10, 1/10] by
        norm_num [calcProgressiveTax, calcGo, max_def, min_def]] at h
    rw [List.chain'_cons] at h
    norm_num at h

/-- Claim C4 (amended): for every income and every band partition, every
produced slice has positive amount, the slice rates are a sublist of the
band rates in band order, and — when the band rates themselves are
strictly increasing — the slice rates are strictly increasing. -/
theorem C4_slices_positive_and_ordered (income : ℚ) (bands : List Band) :
    (∀ s ∈ (calcProgressiveTax income bands).2, 0 < s.amount) ∧
    ((calcProgressiveTax income bands).2.map Slice.rate).Sublist
      (bands.map Band.rate) ∧
    (List.Chain' (fun a b => a < b) (bands.map Band.rate) →
      List.Chain' (fun a b => a < b)
        ((calcProgressiveTax income bands).2.map Slice.rate)) := by
  refine ⟨calcGo_amount_pos bands _ 0, calcGo_rates_sublist bands _ 0, ?_⟩
  intro hchain
  rw [List.chain'_iff_pairwise] at hchain ⊢
  exact List.Pairwise.sublist (calcGo_rates_sublist bands _ 0) hchain

/-- Claim C4 witness: the amended theorem applied to income 150 and the
two-band partition with strictly increasing rates 0 and 0.1. -/
theorem C4_slices_positive_and_ordered_witness :
    0 < (Slice.mk 100 0 0).amount ∧
      List.Chain' (fun a b => a < b)
        ((calcProgressiveTax 150 [⟨some 100, 0⟩, ⟨none, 1/10⟩]).2.map
          Slice.rate) := by
  constructor
  · exact (C4_slices_positive_and_ordered 150
      [⟨some 100, 0⟩, ⟨none, 1/10⟩]).1 ⟨100, 0, 0⟩
      (by norm_num [calcProgressiveTax, calcGo, max_def, min_def])
  · exact (C4_slices_positive_and_ordered 150
      [⟨some 100, 0⟩, ⟨none, 1/10⟩]).2.2
      (by norm_num [List.chain'_cons, List.chain'_singleton])

/-- Band tax of the UK band list for an income in the basic-rate range:
with personal allowance `pa`, an income `x` with `pa < x ≤ 50270` is taxed
`(x - pa) * 0.20` (the allowance slice at 0%, the rest in the 20% band). -/
theorem ukTax_basic_range (ni : Bool) (pa x : ℚ) (h0 : 0 < pa)
    (h1 : pa < x) (h2 : x ≤ 50270) :
    (calcProgressiveTax x (ukBands (some ⟨ni, pa⟩))).1 = (x - pa) * (20/100) := by
  have hx : (0 : ℚ) ≤ x := le_of_lt (h0.trans h1)
  show (calcGo (max 0 x) 0 _).1 = _
  rw [max_eq_right hx]
  show (calcGo x 0 [⟨some pa, 0⟩, ⟨some 50270, 20/100⟩, ⟨some 125140, 40/100⟩,
    ⟨none, 45/100⟩]).1 = _
  simp only [calcGo]
  rw [sub_zero, min_eq_right (le_of_lt h1), max_eq_right (le_of_lt h0),
    min_eq_left (by linarith : x - pa ≤ 50270 - pa),
    max_eq_right (by linarith : (0 : ℚ) ≤ x - pa)]
  rw [if_pos h0, if_neg (by linarith : ¬ x - pa ≤ 0),
    if_pos (by linarith : 0 < x - pa), if_pos (by linarith : x - pa - (x - pa) ≤ 0)]
  ring

/-- Claim C3 counterexample: at income 13000 — strictly above 12570 and
below 50270, as the claim requires — the band tax under allowance 15000
is 0, while under allowance 12570 it is 86; the reduction is 86, not
`(15000 - 12570) * 0.20 = 486`. -/
theorem C3_allowance_shift_cex :
    (calcProgressiveTax 13000 (ukBands (some ⟨true, 15000⟩))).1 ≠
      (calcProgressiveTax 13000 (ukBands (some ⟨true, 12570⟩))).1 -
        (15000 - 12570) * (20/100) := by
  norm_num [ukBands, calcProgressiveTax, calcGo, max_def, min_def]

/-- Claim C3 (amended): raising the UK personal allowance parameter from
12570 to 15000 shifts the first zero-rate band's upper bound to 15000,
and for every income strictly above the NEW allowance 15000 and below the
second threshold 50270 the band tax drops by exactly
`(15000 - 12570) * 0.20` (incomes between 12570 and 15000 have their tax
reduced to 0 instead, which is less than that difference). -/
theorem C3_allowance_shift (ni : Bool) (x : ℚ) (h1 : 15000 < x)
    (h2 : x < 50270) :
    (ukBands (some ⟨ni, 15000⟩)).head? = some ⟨some 15000, 0⟩ ∧
    (calcProgressiveTax x (ukBands (some ⟨ni, 15000⟩))).1 =
      (calcProgressiveTax x (ukBands (some ⟨ni, 12570⟩))).1 -
        (15000 - 12570) * (20/100) := by
  refine ⟨rfl, ?_⟩
  rw [ukTax_basic_range ni 15000 x (by norm_num) h1 (le_of_lt h2),
    ukTax_basic_range ni 12570 x (by norm_num) (by linarith) (le_of_lt h2)]
  ring

/-- Claim C3 witness: the amended theorem applied at income 20000 —
tax 1000 under allowance 15000 versus 1486 under allowance 12570. -/
theorem C3_allowance_shift_witness :
    (15000 : ℚ) < 20000 ∧ (20000 : ℚ) < 50270 ∧
      ((ukBands (some ⟨true, 15000⟩)).head? = some ⟨some 15000, 0⟩ ∧
        (calcProgressiveTax 20000 (ukBands (some ⟨true, 15000⟩))).1 =
          (calcProgressiveTax 20000 (ukBands (some ⟨true, 12570⟩))).1 -
            (15000 - 12570) * (20/100)) :=
  ⟨by norm_num, by norm_num,
    C3_allowance_shift true 20000 (by norm_num) (by norm_num)⟩

/-- With no income left to assign (`remaining ≤ 0`), the loop produces no
slice and no tax, whatever the bands: the first iteration's slice amount
clamps to 0 and the `remaining <= 0` break fires. -/
theorem calcGo_of_nonpos (bands : List Band) (remaining lastCap : ℚ)
    (h : remaining ≤ 0) : calcGo remaining lastCap bands = (0, []) := by
  cases bands with
  | nil => simp [calcGo]
  | cons band rest =>
    rcases hu : band.upto with _ | cap
    · simp only [calcGo, hu]
      rw [max_eq_left h, if_neg (lt_irrefl 0)]
    · simp only [calcGo, hu]
      rw [max_eq_left (le_trans (min_le_left _ _) h), if_neg (lt_irrefl 0),
        if_pos h]

/-- When every band rate is non-negative, the computed tax is
non-negative: each pushed slice has positive amount and non-negative
rate. -/
theorem calcGo_tax_nonneg :
    ∀ (bands : List Band), (∀ b ∈ bands, 0 ≤ b.rate) →
      ∀ (remaining lastCap : ℚ), 0 ≤ (calcGo remaining lastCap bands).1 := by
  intro bands
  induction bands with
  | nil => intro _ r lc; simp [calcGo]
  | cons band rest ih =>
    intro hr r lc
    have hrate : 0 ≤ band.rate := hr band (List.mem_cons_self _ _)
    have hrest : ∀ b ∈ rest, 0 ≤ b.rate := fun b hb =>
      hr b (List.mem_cons_of_mem _ hb)
    rcases hu : band.upto with _ | cap
    · simp only [calcGo, hu]
      split_ifs with h1
      · exact mul_nonneg (le_max_left _ _) hrate
      · exact le_rfl
    · simp only [calcGo, hu]
      split_ifs with h1 h2
      · exact mul_nonneg (le_max_left _ _) hrate
      · exact add_nonneg (mul_nonneg (le_max_left _ _) hrate) (ih hrest _ _)
      · exact le_rfl
      · exact ih hrest r lc

/-- Monotonicity of the loop's tax in `remaining`, for non-negative band
rates: a larger remaining income never produces less tax, whatever
`lastCap` and the band structure. -/
theorem calcGo_tax_mono :
    ∀ (bands : List Band), (∀ b ∈ bands, 0 ≤ b.rate) →
      ∀ (lastCap r1 r2 : ℚ), r1 ≤ r2 →
        (calcGo r1 lastCap bands).1 ≤ (calcGo r2 lastCap bands).1 := by
  intro bands
  induction bands with
  | nil => intro _ lc r1 r2 _; simp [calcGo]
  | cons band rest ih =>
    intro hr lc r1 r2 h12
    rcases le_or_lt r1 0 with hr1 | hr1
    · rw [calcGo_of_nonpos _ r1 lc hr1]
      exact calcGo_tax_nonneg _ hr r2 lc
    · have hr2 : 0 < r2 := lt_of_lt_of_le hr1 h12
      have hrate : 0 ≤ band.rate := hr band (List.mem_cons_self _ _)
      have hrest : ∀ b ∈ rest, 0 ≤ b.rate := fun b hb =>
        hr b (List.mem_cons_of_mem _ hb)
      rcases hu : band.upto with _ | cap
      · simp only [calcGo, hu]
        rw [max_eq_right hr1.le, max_eq_right hr2.le, if_pos hr1, if_pos hr2]
        exact mul_le_mul_of_nonneg_right h12 hrate
      · simp only [calcGo, hu]
        rcases le_or_lt (cap - lc) 0 with hd | hd
        · rw [max_eq_left (le_trans (min_le_right _ _) hd),
            max_eq_left (le_trans (min_le_right _ _) hd),
            if_neg (lt_irrefl 0), if_neg (lt_irrefl 0),
            if_neg (not_le.mpr hr1), if_neg (not_le.mpr hr2)]
          exact ih hrest lc r1 r2 h12
        · have hm1 : 0 < min r1 (cap - lc) := lt_min hr1 hd
          have hm2 : 0 < min r2 (cap - lc) := lt_min hr2 hd
          rw [max_eq_right hm1.le, max_eq_right hm2.le, if_pos hm1, if_pos hm2]
          rcases le_or_lt r1 (cap - lc) with h1d | h1d
          · rw [min_eq_left h1d]
            rcases le_or_lt r2 (cap - lc) with h2d | h2d
            · rw [min_eq_left h2d, if_pos (by linarith : r1 - r1 ≤ 0),
                if_pos (by linarith : r2 - r2 ≤ 0)]
              exact mul_le_mul_of_nonneg_right h12 hrate
            · rw [min_eq_right h2d.le, if_pos (by linarith : r1 - r1 ≤ 0),
                if_neg (by linarith : ¬ r2 - (cap - lc) ≤ 0)]
              have hT := calcGo_tax_nonneg rest hrest (r2 - (cap - lc)) cap
              have hmul : r1 * band.rate ≤ (cap - lc) * band.rate :=
                mul_le_mul_of_nonneg_right h1d hrate
              dsimp only
              linarith
          · have h2d : cap - lc < r2 := lt_of_lt_of_le h1d h12
            rw [min_eq_right h1d.le, min_eq_right h2d.le,
              if_neg (by linarith : ¬ r1 - (cap - lc) ≤ 0),
              if_neg (by linarith : ¬ r2 - (cap - lc) ≤ 0)]
            have hrec := ih hrest cap (r1 - (cap - lc)) (r2 - (cap - lc))
              (by linarith)
            dsimp only
            linarith

/-- Claim C5: for a fixed valid band partition whose rates are fractions
in `[0, 1]` (the spec's Band model), the total tax of
`calcProgressiveTax` is monotone in the income. -/
theorem C5_tax_monotone (bands : List Band) (x y : ℚ)
    (hv : ValidBands bands) (hrates : ∀ b ∈ bands, 0 ≤ b.rate ∧ b.rate ≤ 1)
    (hxy : x ≤ y) :
    (calcProgressiveTax x bands).1 ≤ (calcProgressiveTax y bands).1 :=
  calcGo_tax_mono bands (fun b hb => (hrates b hb).1) 0 (max 0 x) (max 0 y)
    (max_le_max le_rfl hxy)

/-- Claim C5 witness: monotonicity applied to incomes 120 ≤ 200 on the
two-band partition. -/
theorem C5_tax_monotone_witness :
    ValidBands [⟨some 100, 0⟩, ⟨none, 1/10⟩] ∧ (120 : ℚ) ≤ 200 ∧
      (calcProgressiveTax 120 [⟨some 100, 0⟩, ⟨none, 1/10⟩]).1 ≤
        (calcProgressiveTax 200 [⟨some 100, 0⟩, ⟨none, 1/10⟩]).1 := by
  have hv : ValidBands [⟨some 100, 0⟩, ⟨none, 1/10⟩] := by
    refine ⟨?_, [⟨some 100, 0⟩], ⟨none, 1/10⟩, rfl, rfl, ?_⟩ <;>
      simp [List.filterMap]
  refine ⟨hv, by norm_num, C5_tax_monotone _ 120 200 hv ?_ (by norm_num)⟩
  intro b hb
  simp only [List.mem_cons, List.mem_singleton] at hb
  rcases hb with rfl | rfl | h
  · norm_num
  · norm_num
  · simp at h

/-- Claim C6: with FICA enabled, the US extras list is Social Security
`0.062 * min(gross, 168600)` followed by Medicare `gross * 0.0145`, for
every gross (and taxable) income — the Social-Security surcharge is
capped at the wage cap. -/
theorem C6_social_security_capped (taxable gross : ℚ) (p : USParams)
    (h : p.includeFICA = true) :
    usExtras taxable gross (some p) =
      [⟨"Social Security (6.2%)", (62/1000) * min gross 168600⟩,
       ⟨"Medicare (1.45%)", gross * (145/10000)⟩] := by
  simp [usExtras, ficaOn, h]
  ring

/-- Claim C6 witness: at gross income 200000 the Social-Security extra is
`168600 × 0.062`, not `200000 × 0.062`. -/
theorem C6_social_security_capped_witness :
    (USParams.mk FilingStatusUS.single true).includeFICA = true ∧
      usExtras 0 200000 (some ⟨FilingStatusUS.single, true⟩) =
        [⟨"Social Security (6.2%)", (62/1000) * min 200000 168600⟩,
         ⟨"Medicare (1.45%)", 200000 * (145/10000)⟩] ∧
      ((62/1000 : ℚ) * min 200000 168600 = 168600 * (62/1000) ∧
        (168600 * (62/1000) : ℚ) ≠ 200000 * (62/1000)) :=
  ⟨rfl, C6_social_security_capped 0 200000 ⟨FilingStatusUS.single, true⟩ rfl,
    by norm_num [min_def], by norm_num⟩

/-- Claim C7: with NI enabled, the UK extras list is the single
National-Insurance item
`0.08 * max(0, min(gross, 50270) - 12570) + 0.02 * max(0, gross - 50270)`,
computed from gross income — the taxable-income argument is ignored. -/
theorem C7_national_insurance_two_tier (taxable gross : ℚ) (p : UKParams)
    (h : p.includeNI = true) :
    ukExtras taxable gross (some p) =
      [⟨"National Insurance (employee)",
        (8/100) * max 0 (min gross 50270 - 12570) +
          (2/100) * max 0 (gross - 50270)⟩] ∧
    ∀ otherTaxable : ℚ,
      ukExtras otherTaxable gross (some p) = ukExtras taxable gross (some p) := by
  constructor
  · simp [ukExtras, niOn, h]
    ring
  · intro otherTaxable
    rfl

/-- Claim C7 witness: the NI formula at gross 60000 with the default UK
params. -/
theorem C7_national_insurance_two_tier_witness :
    (UKParams.mk true 12570).includeNI = true ∧
      ukExtras 5 60000 (some ⟨true, 12570⟩) =
        [⟨"National Insurance (employee)",
          (8/100) * max 0 (min 60000 50270 - 12570) +
            (2/100) * max 0 (60000 - 50270)⟩] :=
  ⟨rfl, (C7_national_insurance_two_tier 5 60000 ⟨true, 12570⟩ rfl).1⟩

/-- Claim C8: the aggregation's effective rate is
`totalTax / grossAnnual` whenever `grossAnnual` is positive, and exactly 0
when `grossAnnual` is 0, for every regime configuration, deductions and
params. -/
theorem C8_effective_rate_guarded {α : Type} (cfg : TaxConfigM α)
    (amount : ℚ) (period : Period) (standardDeduction otherDeductions : ℚ)
    (params : α) :
    (0 < (computeResult cfg amount period standardDeduction otherDeductions
        params).grossAnnual →
      (computeResult cfg amount period standardDeduction otherDeductions
          params).effRate =
        (computeResult cfg amount period standardDeduction otherDeductions
            params).totalTax /
          (computeResult cfg amount period standardDeduction otherDeductions
              params).grossAnnual) ∧
    ((computeResult cfg amount period standardDeduction otherDeductions
        params).grossAnnual = 0 →
      (computeResult cfg amount period standardDeduction otherDeductions
          params).effRate = 0) := by
  constructor <;> intro h
  · simp only [computeResult] at h ⊢
    rw [if_pos h]
  · simp only [computeResult] at h ⊢
    rw [h, if_neg (lt_irrefl 0)]

/-- Claim C8 witness: a positive gross (100) takes the division branch; a
zero gross (amount 0) yields effective rate exactly 0 even with nonzero
deductions. -/
theorem C8_effective_rate_guarded_witness :
    (0 < (computeResult indiaNewConfig 100 Period.annual 0 0 ()).grossAnnual ∧
      (computeResult indiaNewConfig 100 Period.annual 0 0 ()).effRate =
        (computeResult indiaNewConfig 100 Period.annual 0 0 ()).totalTax /
          (computeResult indiaNewConfig 100 Period.annual 0 0 ()).grossAnnual) ∧
    ((computeResult indiaNewConfig 0 Period.annual 5 7 ()).grossAnnual = 0 ∧
      (computeResult indiaNewConfig 0 Period.annual 5 7 ()).effRate = 0) := by
  constructor
  · refine ⟨by norm_num [computeResult], ?_⟩
    exact (C8_effective_rate_guarded indiaNewConfig 100 Period.annual 0 0 ()).1
      (by norm_num [computeResult])
  · refine ⟨by norm_num [computeResult], ?_⟩
    exact (C8_effective_rate_guarded indiaNewConfig 0 Period.annual 5 7 ()).2
      (by norm_num [computeResult])

/-- Claim C9: with FICA (resp. NI) not enabled — switched off or params
absent — the US (resp. UK) extras list is empty and the total tax reduces
to the progressive band tax alone. -/
theorem C9_extras_off_total_is_band_tax (taxable gross : ℚ)
    (pUS : Option USParams) (pUK : Option UKParams) (amount : ℚ)
    (period : Period) (standardDeduction otherDeductions : ℚ)
    (hUS : ficaOn pUS = false) (hUK : niOn pUK = false) :
    usExtras taxable gross pUS = [] ∧ ukExtras taxable gross pUK = [] ∧
    (computeResult usConfig amount period standardDeduction otherDeductions
        pUS).totalTax =
      (computeResult usConfig amount period standardDeduction otherDeductions
          pUS).incomeTax ∧
    (computeResult ukConfig amount period standardDeduction otherDeductions
        pUK).totalTax =
      (computeResult ukConfig amount period standardDeduction otherDeductions
          pUK).incomeTax := by
  refine ⟨by simp [usExtras, hUS], by simp [ukExtras, hUK], ?_, ?_⟩
  · simp [computeResult, usConfig, usExtras, hUS]
  · simp [computeResult, ukConfig, ukExtras, hUK]

/-- Claim C9 witness: absent US params and UK params with NI switched
off. -/
theorem C9_extras_off_total_is_band_tax_witness :
    (ficaOn none = false ∧ niOn (some ⟨false, 12570⟩) = false) ∧
      usExtras 7 9 none = [] ∧ ukExtras 7 9 (some ⟨false, 12570⟩) = [] ∧
      (computeResult usConfig 50000 Period.annual 0 0 none).totalTax =
        (computeResult usConfig 50000 Period.annual 0 0 none).incomeTax ∧
      (computeResult ukConfig 50000 Period.annual 0 0
          (some ⟨false, 12570⟩)).totalTax =
        (computeResult ukConfig 50000 Period.annual 0 0
            (some ⟨false, 12570⟩)).incomeTax :=
  ⟨⟨rfl, rfl⟩, C9_extras_off_total_is_band_tax 7 9 none (some ⟨false, 12570⟩)
    50000 Period.annual 0 0 rfl rfl⟩

/-- Claim C10: the component passes the gross annual amount to the extras
function without clamping: at gross annual −1000 with FICA on, the US
extras are Social Security −62 (`min(−1000, 168600) × 0.062`) and
Medicare −14.5 (`−1000 × 0.0145`), both negative — while
`calcProgressiveTax` clamps its income argument, yielding zero tax and no
slices on the same −1000. -/
theorem C10_negative_gross_unclamped_extras :
    (computeResult usConfig (-1000) Period.annual 0 0
        (some ⟨FilingStatusUS.single, true⟩)).grossAnnual = -1000 ∧
    (computeResult usConfig (-1000) Period.annual 0 0
        (some ⟨FilingStatusUS.single, true⟩)).extras =
      [⟨"Social Security (6.2%)", -62⟩, ⟨"Medicare (1.45%)", -(29/2)⟩] ∧
    ((-62 : ℚ) < 0 ∧ (-(29/2) : ℚ) < 0) ∧
    (calcProgressiveTax (-1000)
        (usBands (some ⟨FilingStatusUS.single, true⟩))).1 = 0 ∧
    (calcProgressiveTax (-1000)
        (usBands (some ⟨FilingStatusUS.single, true⟩))).2 = [] := by
  refine ⟨by norm_num [computeResult, usConfig], ?_, by norm_num, ?_, ?_⟩ <;>
    norm_num [computeResult, usConfig, usExtras, ficaOn, usBands,
      calcProgressiveTax, calcGo, max_def, min_def]

end SalaryTax
